/-
Verification of the API Conformance Validator (chrono_ast_gate_v2.py).

This file gives a shallow embedding of the validator's data model and
operations, translated from the Python source:
  - the allow-list loader `load_allowlist` (operating on an already
    deserialized JSON document; file I/O and `json.load` are the external
    collaborators, so the embedding takes a `JValue`, and Python exceptions
    raised during deserialization are modelled as `Option.none`),
  - the Python AST fragment the checkers inspect (imports, names,
    attributes, constants, calls),
  - the type-inference helpers, overload matcher and the three checking
    passes of `validate`.

Modelling notes, for a reviewer diffing against the source:
  - Python `set` values are kept as Lean lists; the validator only ever
    tests membership on them, so order/duplication is unobservable.
  - Python dicts in the artifact are association lists; `dict.get` is
    first-match lookup (artifact documents do not repeat keys).
  - `ast.walk` is breadth-first in CPython; the embedding walks
    depth-first.  Each of the three passes of `validate` walks the whole
    tree separately (as in the source), so findings are grouped by pass;
    no proved property depends on the intra-pass visit order.
  - `int(...)` coercion of the "defaults" field is modelled for JSON
    integer and boolean payloads; other payloads (where Python would
    raise or string-parse) map to `none`.
  - Regexes are modelled by their denotation: `ChAxis_[A-Z]` full match
    is an exact 8-character shape check, `re.search("material", _, re.I)`
    is case-insensitive substring containment (ASCII case folding).
-/
import Mathlib

set_option autoImplicit false

namespace ChronoGate

/-! ### Generic list helpers (used in place of Python loops) -/

/-- Concatenation of `f` over a list (Python: appending to a shared
`errors` list while iterating). -/
def catMap {α β : Type} (f : α → List β) : List α → List β
  | [] => []
  | x :: xs => f x ++ catMap f xs

/-- All-or-nothing traversal (a Python loop that may raise). -/
def optMap {α β : Type} (f : α → Option β) : List α → Option (List β)
  | [] => some []
  | x :: xs =>
    match f x, optMap f xs with
    | some y, some ys => some (y :: ys)
    | _, _ => none

/-- `needle` occurs as a contiguous run inside `hay`
(Python: `needle in hay` on strings). -/
def containsSub (hay needle : List Char) : Bool :=
  match hay with
  | [] => needle.isEmpty
  | c :: t => needle.isPrefixOf (c :: t) || containsSub t needle

/-- Python `s.startswith(p)`. -/
def strStarts (s p : String) : Bool :=
  p.data.isPrefixOf s.data

/-! ### Fixed configuration tables (module constants in the source) -/

/-- `PYCHRONO_ROOTS`: allowed import roots and their required aliases. -/
def PYCHRONO_ROOTS : List (String × String) :=
  [("pychrono", "chrono"),
   ("pychrono.vehicle", "veh"),
   ("pychrono.irrlicht", "irr"),
   ("pychrono.fea", "fea")]

/-- `LEGACY_BLOCKLIST`: legacy-era names blocked unconditionally. -/
def LEGACY_BLOCKLIST : List String :=
  ["ChBodyAuxRef", "ChLinkEngine", "ChSharedPtr", "ChSystemSMC7",
   "ChSystemNSC7", "ChVectorDynamic", "ChMatrix33", "ChShared"]

/-- Key membership `base in PYCHRONO_ROOTS` plus value lookup. -/
def rootsLookup (m : String) : Option String :=
  match PYCHRONO_ROOTS.find? (fun p => p.1 == m) with
  | some p => some p.2
  | none => none

/-- The for-loop `for full, alias in PYCHRONO_ROOTS.items(): if alias == head`:
maps a chain head to the fully qualified module (first match). -/
def aliasToMod (head : String) : Option String :=
  match PYCHRONO_ROOTS.find? (fun p => p.2 == head) with
  | some p => some p.1
  | none => none

/-- The canonical alias strings (`chrono`, `veh`, `irr`, `fea`). -/
def canonicalAliases : List String := PYCHRONO_ROOTS.map (fun p => p.2)

/-! ### JSON documents and the allow-list loader -/

/-- Deserialized JSON value (what `json.load` hands to `load_allowlist`). -/
inductive JValue where
  | null
  | bool (b : Bool)
  | int (n : Int)
  | str (s : String)
  | arr (xs : List JValue)
  | obj (kvs : List (String × JValue))

/-- `d.get(k)` on an object's entry list (first match). -/
def jGet (kvs : List (String × JValue)) (k : String) : Option JValue :=
  match kvs.find? (fun p => p.1 == k) with
  | some p => some p.2
  | none => none

/-- One normalized overload record: `{"args": [...], "defaults": d}`. -/
structure Overload where
  args : List String
  defaults : Int
  deriving DecidableEq

/-- The loaded specification: the dict
`{"modules": ..., "overloads": ..., "enums": ...}` returned by
`load_allowlist` (sets kept as lists, see header). -/
structure Allowlist where
  modules : List (String × List String)
  overloads : List (String × List Overload)
  enums : List String
  deriving DecidableEq

def asStr : JValue → Option String
  | .str s => some s
  | _ => none

/-- Python `int(x)` for the payloads that occur in artifacts. -/
def asInt : JValue → Option Int
  | .int n => some n
  | .bool b => some (if b then 1 else 0)
  | _ => none

def asStrList : JValue → Option (List String)
  | .arr xs => optMap asStr xs
  | _ => none

/-- `{k: set(v) for k, v in raw.get("modules", {}).items()}`. -/
def parseModules : JValue → Option (List (String × List String))
  | .obj kvs => optMap (fun kv => (asStrList kv.2).map (fun l => (kv.1, l))) kvs
  | _ => none

/-- Normalization of one overload entry: dicts keep their `args`/`defaults`,
bare lists get `defaults = 0`. -/
def parseOv : JValue → Option Overload
  | .obj kvs =>
    match asStrList ((jGet kvs "args").getD (.arr [])),
          asInt ((jGet kvs "defaults").getD (.int 0)) with
    | some args, some d => some ⟨args, d⟩
    | _, _ => none
  | .arr xs => (optMap asStr xs).map (fun args => ⟨args, 0⟩)
  | _ => none

def parseOvList : JValue → Option (List Overload)
  | .arr xs => optMap parseOv xs
  | _ => none

def parseOverloads : JValue → Option (List (String × List Overload))
  | .obj kvs => optMap (fun kv => (parseOvList kv.2).map (fun l => (kv.1, l))) kvs
  | _ => none

/-- `load_allowlist` (minus the file read / `json.load`, which are the
external collaborators): builds the specification from the raw document,
defaulting each of the three top-level keys when absent. -/
def load_allowlist (raw : JValue) : Option Allowlist :=
  match raw with
  | .obj kvs =>
    match parseModules ((jGet kvs "modules").getD (.obj [])),
          parseOverloads ((jGet kvs "overloads").getD (.obj [])),
          asStrList ((jGet kvs "enums").getD (.arr [])) with
    | some ms, some os, some es => some ⟨ms, os, es⟩
    | _, _, _ => none
  | _ => none

/-! ### The Python AST fragment -/

/-- Literal constants (`ast.Constant`); `other` stands for constant kinds
the validator does not classify (bytes, complex, ...). -/
inductive PyConst where
  | bool (b : Bool)
  | int (n : Int)
  | float
  | str (s : String)
  | none
  | other
  deriving DecidableEq

/-- Expressions: the node kinds inspected by the validator.  Keyword
arguments are `(arg?, value)` pairs; `arg? = none` is a `**kwargs` spread. -/
inductive Expr where
  | name (id : String)
  | const (c : PyConst)
  | attr (value : Expr) (attrName : String)
  | call (func : Expr) (args : List Expr) (kws : List (Option String × Expr))

/-- One `name as asname` clause of an import statement (`ast.alias`). -/
structure ImpAlias where
  name : String
  asname : Option String

/-- Statements: the kinds `validate` distinguishes. -/
inductive Stmt where
  | imp (names : List ImpAlias)
  | fromImport (module : Option String) (names : List ImpAlias)
  | exprStmt (e : Expr)

/-- A parsed module body. -/
abbrev PySource := List Stmt

/-! ### AST helpers -/

/-- `_resolve_attr_chain`: unfolds `a.b.c` to `["a","b","c"]`; a chain not
rooted in a plain name keeps only its attribute tail. -/
def chainAux : Expr → List String → List String
  | .attr v a, acc => chainAux v (a :: acc)
  | .name i, acc => i :: acc
  | _, acc => acc

def resolve_attr_chain (e : Expr) : List String := chainAux e []

/-- `_literal_type` (bool is tested before int, as in the source). -/
def literal_type : PyConst → Option String
  | .bool _ => some "bool"
  | .int _ => some "int"
  | .float => some "double"
  | .str _ => some "string"
  | .none => some "none"
  | .other => Option.none

/-- Full match of the regex `ChAxis_[A-Z]`. -/
def isChAxisEnum (s : String) : Bool :=
  match s.data with
  | [c1, c2, c3, c4, c5, c6, c7, c8] =>
    c1 == 'C' && c2 == 'h' && c3 == 'A' && c4 == 'x' && c5 == 'i' &&
    c6 == 's' && c7 == '_' && decide ('A' ≤ c8) && decide (c8 ≤ 'Z')
  | _ => false

/-- `re.search("material", leaf, re.I)`. -/
def containsMaterial (s : String) : Bool :=
  containsSub (s.data.map Char.toLower) "material".data

/-- `_name_or_attr_type`: enum convention first, then the material
heuristic on the final chain segment. -/
def name_or_attr_type (e : Expr) : Option String :=
  match (resolve_attr_chain e).getLast? with
  | Option.none => Option.none
  | some leaf =>
    if isChAxisEnum leaf then some "ChAxis"
    else if containsMaterial leaf then some "ChContactMaterial"
    else Option.none

/-- `_call_constructed_type`: recognize constructed materials by callee
name ("ContactMaterial" as a case-sensitive substring). -/
def call_constructed_type (f : Expr) : Option String :=
  let nm := ((resolve_attr_chain f).getLast?).getD ""
  if containsSub nm.data "ContactMaterial".data then some "ChContactMaterial"
  else Option.none

/-- `_infer_arg_type`. -/
def infer_arg_type : Expr → String
  | .const c => (literal_type c).getD "unknown"
  | .name i => (name_or_attr_type (.name i)).getD "unknown"
  | .attr v a => (name_or_attr_type (.attr v a)).getD "unknown"
  | .call f _ _ => (call_constructed_type f).getD "unknown"

/-- `_arg_types_pos_kw`: positional arguments then keyword arguments;
a `**kwargs` spread contributes one `"unknown"`. -/
def arg_types_pos_kw (args : List Expr) (kws : List (Option String × Expr)) :
    List String :=
  args.map infer_arg_type ++
    kws.map (fun kw =>
      match kw.1 with
      | Option.none => "unknown"
      | some _ => infer_arg_type kw.2)

/-! ### Overload matching -/

/-- `_type_matches`. -/
def type_matches (expected actual : String) : Bool :=
  if expected == "double" && (actual == "double" || actual == "int") then true
  else if expected == "int" && actual == "int" then true
  else if expected == "bool" && actual == "bool" then true
  else if expected == "ChAxis" && actual == "ChAxis" then true
  else if expected == "ChContactMaterial" && actual == "ChContactMaterial" then true
  else if actual == "unknown" then false
  else expected == actual

/-- `_args_fit_overload`: default-aware arity check, then positional type
comparison of the first `N` parameters. -/
def args_fit_overload (given : List String) (ov : Overload) : Bool :=
  if given.length > ov.args.length ∨
      ((ov.args.length : Int) - (given.length : Int) > ov.defaults) then false
  else (ov.args.zip given).all (fun p => type_matches p.1 p.2)

/-- `_pretty_overloads`. -/
def pretty_overloads (nm : String) (ovs : List Overload) : List String :=
  ovs.map (fun ov =>
    nm ++ "(" ++ String.intercalate ", " ov.args ++ ")" ++
      (if ov.defaults ≠ 0 then "  [defaults=" ++ toString ov.defaults ++ "]" else ""))

/-! ### Tree walking -/

mutual
/-- All nodes of an expression (CPython's `ast.walk` restricted to
expressions; see the header note on visit order). -/
def walkExpr : Expr → List Expr
  | .name i => [.name i]
  | .const c => [.const c]
  | .attr v a => .attr v a :: walkExpr v
  | .call f args kws => .call f args kws :: (walkExpr f ++ walkArgs args ++ walkKws kws)

def walkArgs : List Expr → List Expr
  | [] => []
  | e :: es => walkExpr e ++ walkArgs es

def walkKws : List (Option String × Expr) → List Expr
  | [] => []
  | k :: ks => walkExpr k.2 ++ walkKws ks
end

/-- All expression nodes of a module body. -/
def walkSource (m : PySource) : List Expr :=
  catMap (fun s =>
    match s with
    | .exprStmt e => walkExpr e
    | _ => []) m

/-! ### The three checking passes of `validate` -/

/-- Import-discipline findings of one statement (first `ast.walk` loop of
`validate`; the dead `alias_to_mod` accumulator of the source is omitted). -/
def checkImportAlias (a : ImpAlias) : List String :=
  match rootsLookup a.name with
  | some want =>
    if a.asname == some want then []
    else ["Import must be exactly: \x27import " ++ a.name ++ " as " ++ want ++ "\x27"]
  | Option.none =>
    if strStarts a.name "pychrono" then
      ["Disallowed pychrono submodule: " ++ a.name]
    else []

def checkImportStmt : Stmt → List String
  | .fromImport base names =>
    let b := base.getD ""
    (if strStarts b "pychrono" then
      match rootsLookup b with
      | some want =>
        ["Use \x27import " ++ b ++ " as " ++ want ++ "\x27 (not \x27from " ++ b ++ " import ...\x27)."]
      | Option.none => ["Disallowed import-from base: " ++ b]
    else []) ++
    (if names.any (fun a => a.name == "*") then
      ["Star import banned: from " ++ b ++ " import *"]
    else [])
  | .imp names => catMap checkImportAlias names
  | .exprStmt _ => []

/-- `_is_allowed`: `attr in modules.get(mod, set())`. -/
def is_allowed (modules : List (String × List String)) (mod attr : String) : Bool :=
  (((modules.find? (fun p => p.1 == mod)).map (fun p => p.2)).getD []).contains attr

/-- Symbol & legacy findings of one walked node (second `ast.walk` loop). -/
def symbolCheckNode (allow : Allowlist) : Expr → List String
  | .name i =>
    if LEGACY_BLOCKLIST.contains i then ["Legacy symbol disallowed: " ++ i] else []
  | .attr v a =>
    match resolve_attr_chain (.attr v a) with
    | [] => []
    | head :: rest =>
      match aliasToMod head with
      | Option.none => []
      | some fq =>
        match rest with
        | [] => []
        | attr :: _ =>
          if LEGACY_BLOCKLIST.contains attr then
            ["Legacy symbol disallowed: " ++ fq ++ "." ++ attr]
          else if !is_allowed allow.modules fq attr then
            ["Missing in 9.0.1 allowlist: " ++ fq ++ "." ++ attr]
          else []
  | _ => []

/-- Overload lookup `fq in overloads` / `overloads[fq]`. -/
def ovLookup (ovs : List (String × List Overload)) (k : String) :
    Option (List Overload) :=
  match ovs.find? (fun p => p.1 == k) with
  | some p => some p.2
  | Option.none => Option.none

/-- Overload findings of one walked node (third `ast.walk` loop). -/
def callCheckNode (allow : Allowlist) : Expr → List String
  | .call f args kws =>
    match resolve_attr_chain f with
    | [] => []
    | head :: rest =>
      match aliasToMod head with
      | Option.none => []
      | some fq =>
        match rest with
        | [] => []
        | nm :: _ =>
          match ovLookup allow.overloads (fq ++ "." ++ nm) with
          | Option.none => []
          | some allowed_ov =>
            let given := arg_types_pos_kw args kws
            if allowed_ov.any (fun ov => args_fit_overload given ov) then []
            else
              ["Constructor mismatch for " ++ nm ++ "(" ++
                String.intercalate ", " given ++
                ") — allowed overloads:\n  - " ++
                String.intercalate "\n  - " (pretty_overloads nm allowed_ov)]
  | _ => []

/-- All findings of a successfully parsed source, in pass order. -/
def validateTree (allow : Allowlist) (m : PySource) : List String :=
  catMap checkImportStmt m ++
    catMap (symbolCheckNode allow) (walkSource m) ++
    catMap (callCheckNode allow) (walkSource m)

/-- `validate`: the syntax-error branch returns the single syntax finding;
otherwise the three passes run and `ok = (len(errors) == 0)`.  Parsing is
the external collaborator, so the source arrives as a parse result. -/
def validate (parsed : Except String PySource) (allow : Allowlist) :
    Bool × List String :=
  match parsed with
  | .error e => (false, ["SyntaxError: " ++ e])
  | .ok m =>
    let errs := validateTree allow m
    (errs.isEmpty, errs)

/-! ### Statement-level predicates (phrasing the claims' preconditions) -/

/-- Precondition of the vacuous-pass property on import statements: the
statement triggers none of the import-discipline rules (no pychrono
from-import, no star import, plain pychrono imports only as a recognized
root under its canonical alias). -/
def cleanImportStmt : Stmt → Bool
  | .fromImport base names =>
    !strStarts (base.getD "") "pychrono" && !(names.any (fun a => a.name == "*"))
  | .imp names =>
    names.all (fun a =>
      match rootsLookup a.name with
      | some want => a.asname == some want
      | Option.none => !strStarts a.name "pychrono")
  | .exprStmt _ => true

/-- Precondition of the vacuous-pass property on walked expression nodes:
no attribute chain or call headed by a canonical alias, no legacy-blocked
bare name. -/
def exprClean : Expr → Bool
  | .name i => !LEGACY_BLOCKLIST.contains i
  | .const _ => true
  | .attr v a =>
    match (resolve_attr_chain (.attr v a)).head? with
    | some h => (aliasToMod h).isNone
    | Option.none => true
  | .call f _ _ =>
    match (resolve_attr_chain f).head? with
    | some h => (aliasToMod h).isNone
    | Option.none => true

/-! ### Rich-document constructors (for the loader claims) -/

/-- One overload entry of a rich artifact, before normalization. -/
inductive OvEntry where
  | bare (args : List String)
  | withDefaults (args : List String) (defaults : Int)

def ovEntryToJson : OvEntry → JValue
  | .bare args => .arr (args.map .str)
  | .withDefaults args d =>
    .obj [("args", .arr (args.map .str)), ("defaults", .int d)]

/-- The normalization `load_allowlist` applies to an entry. -/
def normalizeEntry : OvEntry → Overload
  | .bare args => ⟨args, 0⟩
  | .withDefaults args d => ⟨args, d⟩

/-- A rich artifact document with `modules`, `overloads` and `enums`. -/
def mkRichDoc (ms : List (String × List String))
    (os : List (String × List OvEntry)) (es : List String) : JValue :=
  .obj [("modules", .obj (ms.map (fun p => (p.1, JValue.arr (p.2.map JValue.str))))),
        ("overloads", .obj (os.map (fun p => (p.1, JValue.arr (p.2.map ovEntryToJson))))),
        ("enums", .arr (es.map JValue.str))]

/-! ### Concrete sample data -/

/-- A specification with empty tables. -/
def allowEmpty : Allowlist := ⟨[], [], []⟩

/-- `from numpy import *` — unrelated to any recognized root. -/
def srcStarNumpy : PySource := [.fromImport (some "numpy") [⟨"*", Option.none⟩]]

/-- `import numpy as np` followed by `np.array(1)` — touches no
recognized alias and no legacy name. -/
def srcNumpyUse : PySource :=
  [.imp [⟨"numpy", some "np"⟩],
   .exprStmt (.call (.attr (.name "np") "array") [.const (.int 1)] [])]

/-- A legacy flat artifact: module paths mapped directly to symbol lists. -/
def flatDoc : JValue := .obj [("pychrono", .arr [.str "ChBody"])]

/-- Sample rich-artifact contents (Scenario A's overload plus a bare one). -/
def msRich : List (String × List String) := [("pychrono", ["ChBody"])]

def osRich : List (String × List OvEntry) :=
  [("pychrono.ChBodyEasyCylinder",
    [.withDefaults ["ChAxis", "double", "double", "double", "ChContactMaterial"] 1,
     .bare ["double"]])]

def esRich : List String := ["ChAxis"]

/-- A specification whose enum-family table holds `ChForce`. -/
def allowChForce : Allowlist := ⟨[], [], ["ChForce"]⟩

/-- A specification cataloguing one single-parameter overload for
`pychrono.Foo`. -/
def allowFoo : Allowlist :=
  ⟨[("pychrono", ["Foo"])], [("pychrono.Foo", [⟨["double"], 0⟩])], []⟩

/-- The call `chrono.Foo(x)` — its one argument is statically
unanalyzable. -/
def callFooX : Expr := .call (.attr (.name "chrono") "Foo") [.name "x"] []

/-- Scenario E specification: `SomeBrandNewMethod` is absent from both the
symbol set of `pychrono` and the overload table. -/
def allowScenE : Allowlist := ⟨[("pychrono", ["ChBody"])], [], []⟩

/-- Scenario E source: `import pychrono as chrono` then
`chrono.SomeBrandNewMethod()`. -/
def srcScenE : PySource :=
  [.imp [⟨"pychrono", some "chrono"⟩],
   .exprStmt (.call (.attr (.name "chrono") "SomeBrandNewMethod") [] [])]

/-! ### Shared helper lemmas -/

theorem catMap_eq_nil {α β : Type} (f : α → List β) (l : List α)
    (h : ∀ x ∈ l, f x = []) : catMap f l = [] := by
  induction l with
  | nil => rfl
  | cons x xs ih =>
    simp [catMap, h x (by simp), ih (fun y hy => h y (by simp [hy]))]

theorem catMap_ne_nil {α β : Type} (f : α → List β) (l : List α) (x : α)
    (hx : x ∈ l) (hfx : f x ≠ []) : catMap f l ≠ [] := by
  revert hx
  induction l with
  | nil => intro hx; cases hx
  | cons y ys ih =>
    intro hx hnil
    rcases List.append_eq_nil.mp hnil with ⟨h1, h2⟩
    rcases List.mem_cons.mp hx with h | h
    · exact hfx (h ▸ h1)
    · exact ih h h2

theorem ok_false_of_errs {allow : Allowlist} {m : PySource}
    (h : validateTree allow m ≠ []) : (validate (.ok m) allow).1 = false := by
  cases hc : validateTree allow m with
  | nil => exact absurd hc h
  | cons a t => simp [validate, hc]

theorem tree_ne_of_import {allow : Allowlist} {m : PySource} {s : Stmt}
    (hs : s ∈ m) (h : checkImportStmt s ≠ []) : validateTree allow m ≠ [] := by
  intro hnil
  unfold validateTree at hnil
  rcases List.append_eq_nil.mp hnil with ⟨h12, _⟩
  rcases List.append_eq_nil.mp h12 with ⟨h1, _⟩
  exact catMap_ne_nil _ _ _ hs h h1

theorem tree_ne_of_symbol {allow : Allowlist} {m : PySource} {e : Expr}
    (he : e ∈ walkSource m) (h : symbolCheckNode allow e ≠ []) :
    validateTree allow m ≠ [] := by
  intro hnil
  unfold validateTree at hnil
  rcases List.append_eq_nil.mp hnil with ⟨h12, _⟩
  rcases List.append_eq_nil.mp h12 with ⟨_, h2⟩
  exact catMap_ne_nil _ _ _ he h h2

theorem checkImportStmt_clean (s : Stmt) (h : cleanImportStmt s = true) :
    checkImportStmt s = [] := by
  cases s with
  | fromImport base names =>
    simp only [cleanImportStmt, Bool.and_eq_true, Bool.not_eq_true'] at h
    simp [checkImportStmt, h.1, h.2]
  | imp names =>
    simp only [cleanImportStmt, List.all_eq_true] at h
    apply catMap_eq_nil
    intro a ha
    have ha' := h a ha
    unfold checkImportAlias
    cases hr : rootsLookup a.name with
    | some w =>
      rw [hr] at ha'
      simp only at ha'
      simp [ha']
    | none =>
      rw [hr] at ha'
      simp only [Bool.not_eq_true'] at ha'
      simp [ha']
  | exprStmt e => rfl

theorem symbolCheckNode_clean (allow : Allowlist) (e : Expr)
    (h : exprClean e = true) : symbolCheckNode allow e = [] := by
  cases e with
  | name i =>
    simp only [exprClean, Bool.not_eq_true'] at h
    have h' : i ∉ LEGACY_BLOCKLIST := by simpa using h
    simp [symbolCheckNode, h']
  | const c => rfl
  | attr v a =>
    simp only [exprClean] at h
    cases hc : resolve_attr_chain (.attr v a) with
    | nil => simp [symbolCheckNode, hc]
    | cons hd tl =>
      rw [hc] at h
      simp only [List.head?, Option.isNone_iff_eq_none] at h
      simp [symbolCheckNode, hc, h]
  | call f args kws => rfl

theorem callCheckNode_clean (allow : Allowlist) (e : Expr)
    (h : exprClean e = true) : callCheckNode allow e = [] := by
  cases e with
  | name i => rfl
  | const c => rfl
  | attr v a => rfl
  | call f args kws =>
    simp only [exprClean] at h
    cases hc : resolve_attr_chain f with
    | nil => simp [callCheckNode, hc]
    | cons hd tl =>
      rw [hc] at h
      simp only [List.head?, Option.isNone_iff_eq_none] at h
      simp [callCheckNode, hc, h]

/-! ### Claim theorems -/

/-- C1 (counterexample): `from numpy import *` parses, contains no
expression nodes at all (so no alias-headed chain or call, and no
legacy-blocked bare name), yet `validate` returns `ok = false` with a
star-import finding — refuting the claim that such sources always pass. -/
theorem C1_counterexample :
    walkSource srcStarNumpy = [] ∧
    validate (.ok srcStarNumpy) allowEmpty =
      (false, ["Star import banned: from numpy import *"]) :=
  ⟨rfl, rfl⟩

/-- C1 (amended): a source that parses, whose import statements trigger no
import-discipline findings, and that contains no attribute chain or call
headed by a canonical alias and no legacy-blocked bare name, validates
with `ok = true` and empty findings, for every specification. -/
theorem C1_vacuous_pass (allow : Allowlist) (m : PySource)
    (h1 : ∀ s ∈ m, cleanImportStmt s = true)
    (h2 : ∀ e ∈ walkSource m, exprClean e = true) :
    validate (.ok m) allow = (true, []) := by
  have p1 : catMap checkImportStmt m = [] :=
    catMap_eq_nil _ _ (fun s hs => checkImportStmt_clean s (h1 s hs))
  have p2 : catMap (symbolCheckNode allow) (walkSource m) = [] :=
    catMap_eq_nil _ _ (fun e he => symbolCheckNode_clean allow e (h2 e he))
  have p3 : catMap (callCheckNode allow) (walkSource m) = [] :=
    catMap_eq_nil _ _ (fun e he => callCheckNode_clean allow e (h2 e he))
  simp [validate, validateTree, p1, p2, p3]

/-- C1 (witness): `import numpy as np` plus `np.array(1)` passes with no
findings against the empty specification. -/
theorem C1_witness : validate (.ok srcNumpyUse) allowEmpty = (true, []) :=
  C1_vacuous_pass allowEmpty srcNumpyUse (by decide) (by decide)

/-- C7: a source that fails to parse yields `ok = false` with exactly the
single syntax finding, independently of the loaded specification (no
other check contributes). -/
theorem C7_syntax_error (msg : String) (allow : Allowlist) :
    validate (.error msg) allow = (false, ["SyntaxError: " ++ msg]) ∧
    (["SyntaxError: " ++ msg] : List String).length = 1 :=
  ⟨rfl, rfl⟩

/-- C9: validating the identical (specification, source) pair twice yields
the same `ok` and the same findings in the same order. -/
theorem C9_idempotent (parsed : Except String PySource) (allow : Allowlist)
    (r1 r2 : Bool × List String)
    (h1 : r1 = validate parsed allow) (h2 : r2 = validate parsed allow) :
    r1.1 = r2.1 ∧ r1.2 = r2.2 := by
  subst h1; subst h2; exact ⟨rfl, rfl⟩

/-- C9 (witness): two runs on a concrete pair agree. -/
theorem C9_witness :
    (validate (.ok srcNumpyUse) allowEmpty).1 = (validate (.ok srcNumpyUse) allowEmpty).1 ∧
    (validate (.ok srcNumpyUse) allowEmpty).2 = (validate (.ok srcNumpyUse) allowEmpty).2 :=
  C9_idempotent (.ok srcNumpyUse) allowEmpty _ _ rfl rfl

/-- C10: every `from X import *` statement produces a star-import finding,
even when `X` is unrelated to the recognized roots, and any source
containing such a statement validates with `ok = false`. -/
theorem C10_star_ban (base : Option String) (names : List ImpAlias)
    (h : names.any (fun a => a.name == "*") = true) :
    ("Star import banned: from " ++ base.getD "" ++ " import *") ∈
      checkImportStmt (.fromImport base names) ∧
    ∀ (allow : Allowlist) (m : PySource), Stmt.fromImport base names ∈ m →
      (validate (.ok m) allow).1 = false := by
  have hmem : ("Star import banned: from " ++ base.getD "" ++ " import *") ∈
      checkImportStmt (.fromImport base names) := by
    simp only [checkImportStmt, h, if_true]
    exact List.mem_append_right _ (by simp)
  refine ⟨hmem, ?_⟩
  intro allow m hm
  exact ok_false_of_errs (tree_ne_of_import hm (List.ne_nil_of_mem hmem))

/-- C10 (witness): `from numpy import *` is flagged and fails validation. -/
theorem C10_witness :
    ("Star import banned: from numpy import *") ∈
      checkImportStmt (.fromImport (some "numpy") [⟨"*", Option.none⟩]) ∧
    (validate (.ok srcStarNumpy) allowEmpty).1 = false := by
  have h := C10_star_ban (some "numpy") [⟨"*", Option.none⟩] (by decide)
  exact ⟨h.1, h.2 allowEmpty srcStarNumpy (by simp [srcStarNumpy])⟩

/-! ### Loader lemmas -/

theorem optMap_asStr (l : List String) :
    optMap asStr (l.map JValue.str) = some l := by
  induction l with
  | nil => rfl
  | cons x xs ih => simp [optMap, asStr, ih]

theorem asStrList_map (l : List String) :
    asStrList (.arr (l.map .str)) = some l := by
  simp [asStrList, optMap_asStr]

theorem parseOv_entry (e : OvEntry) :
    parseOv (ovEntryToJson e) = some (normalizeEntry e) := by
  cases e with
  | bare args => simp [ovEntryToJson, parseOv, optMap_asStr, normalizeEntry]
  | withDefaults args d =>
    have h1 : jGet [("args", JValue.arr (args.map JValue.str)),
        ("defaults", JValue.int d)] "args" =
        some (JValue.arr (args.map JValue.str)) := rfl
    have h2 : jGet [("args", JValue.arr (args.map JValue.str)),
        ("defaults", JValue.int d)] "defaults" = some (JValue.int d) := rfl
    simp [ovEntryToJson, parseOv, h1, h2, asStrList_map, asInt, normalizeEntry]

theorem parseModules_mk (ms : List (String × List String)) :
    parseModules (.obj (ms.map (fun p => (p.1, JValue.arr (p.2.map JValue.str))))) =
      some ms := by
  simp only [parseModules]
  induction ms with
  | nil => rfl
  | cons p ps ih => simp [optMap, asStrList_map, ih]

theorem parseOvList_mk (l : List OvEntry) :
    parseOvList (.arr (l.map ovEntryToJson)) = some (l.map normalizeEntry) := by
  simp only [parseOvList]
  induction l with
  | nil => rfl
  | cons e es ih => simp [optMap, parseOv_entry, ih]

theorem parseOverloads_mk (os : List (String × List OvEntry)) :
    parseOverloads (.obj (os.map (fun p => (p.1, JValue.arr (p.2.map ovEntryToJson))))) =
      some (os.map (fun p => (p.1, p.2.map normalizeEntry))) := by
  simp only [parseOverloads]
  induction os with
  | nil => rfl
  | cons p ps ih => simp [optMap, parseOvList_mk, ih]

/-- C2 (counterexample): the flat legacy document mapping `pychrono`
directly to a symbol list loads with an EMPTY module table — not with
that mapping as the module-to-symbol table, as the claim states. -/
theorem C2_counterexample :
    load_allowlist flatDoc = some ⟨[], [], []⟩ ∧
    (⟨[], [], []⟩ : Allowlist).modules ≠ [("pychrono", ["ChBody"])] :=
  ⟨rfl, by decide⟩

/-- C2 (amended): the loader accepts both shapes without failing, but a
flat document (no `modules`/`overloads`/`enums` keys) loads with empty
module, overload AND enum tables — its flat entries are ignored — while a
rich document loads the `modules`, `overloads` (normalized) and `enums`
contents. -/
theorem C2_loader_shapes (kvs : List (String × JValue))
    (hm : jGet kvs "modules" = Option.none)
    (ho : jGet kvs "overloads" = Option.none)
    (he : jGet kvs "enums" = Option.none)
    (ms : List (String × List String)) (os : List (String × List OvEntry))
    (es : List String) :
    load_allowlist (.obj kvs) = some ⟨[], [], []⟩ ∧
    load_allowlist (mkRichDoc ms os es) =
      some ⟨ms, os.map (fun p => (p.1, p.2.map normalizeEntry)), es⟩ := by
  constructor
  · simp [load_allowlist, hm, ho, he, parseModules, parseOverloads, asStrList, optMap]
  · have h1 : jGet [("modules", JValue.obj (ms.map (fun p => (p.1, JValue.arr (p.2.map JValue.str))))),
        ("overloads", JValue.obj (os.map (fun p => (p.1, JValue.arr (p.2.map ovEntryToJson))))),
        ("enums", JValue.arr (es.map JValue.str))] "modules" =
        some (JValue.obj (ms.map (fun p => (p.1, JValue.arr (p.2.map JValue.str))))) := rfl
    have h2 : jGet [("modules", JValue.obj (ms.map (fun p => (p.1, JValue.arr (p.2.map JValue.str))))),
        ("overloads", JValue.obj (os.map (fun p => (p.1, JValue.arr (p.2.map ovEntryToJson))))),
        ("enums", JValue.arr (es.map JValue.str))] "overloads" =
        some (JValue.obj (os.map (fun p => (p.1, JValue.arr (p.2.map ovEntryToJson))))) := rfl
    have h3 : jGet [("modules", JValue.obj (ms.map (fun p => (p.1, JValue.arr (p.2.map JValue.str))))),
        ("overloads", JValue.obj (os.map (fun p => (p.1, JValue.arr (p.2.map ovEntryToJson))))),
        ("enums", JValue.arr (es.map JValue.str))] "enums" =
        some (JValue.arr (es.map JValue.str)) := rfl
    simp [mkRichDoc, load_allowlist, h1, h2, h3, parseModules_mk,
      parseOverloads_mk, asStrList_map]

/-- C2 (witness): the flat sample document loads with empty tables; the
rich sample document loads its contents, normalizing overload entries. -/
theorem C2_witness :
    load_allowlist flatDoc = some ⟨[], [], []⟩ ∧
    load_allowlist (mkRichDoc msRich osRich esRich) =
      some ⟨msRich, osRich.map (fun p => (p.1, p.2.map normalizeEntry)), esRich⟩ := by
  have h := C2_loader_shapes [("pychrono", .arr [.str "ChBody"])] rfl rfl rfl
    msRich osRich esRich
  exact ⟨h.1, h.2⟩

/-! ### Overload-matcher lemmas -/

theorem zip_all_of_pointwise (ts given : List String)
    (h : ∀ i (h1 : i < given.length) (h2 : i < ts.length),
      type_matches (ts.get ⟨i, h2⟩) (given.get ⟨i, h1⟩) = true) :
    ((ts.zip given).all fun p => type_matches p.1 p.2) = true := by
  induction ts generalizing given with
  | nil => simp
  | cons t ts ih =>
    cases given with
    | nil => simp
    | cons g gs =>
      simp only [List.zip_cons_cons, List.all_cons, Bool.and_eq_true]
      exact ⟨h 0 (by simp) (by simp),
        ih gs (fun i h1 h2 =>
          h (i + 1) (Nat.succ_lt_succ h1) (Nat.succ_lt_succ h2))⟩

/-- C3: for an overload with `M` declared parameter types and `D ≤ M`
trailing defaults, a call whose supplied tags are pointwise compatible is
accepted exactly when `M - D ≤ N ≤ M`; outside that range it is rejected
regardless of the supplied tags. -/
theorem C3_default_arity (ov : Overload) (D : Nat) (given : List String)
    (hdef : ov.defaults = (D : Int)) (hD : D ≤ ov.args.length) :
    ((∀ i (h1 : i < given.length) (h2 : i < ov.args.length),
        type_matches (ov.args.get ⟨i, h2⟩) (given.get ⟨i, h1⟩) = true) →
      (args_fit_overload given ov = true ↔
        ov.args.length - D ≤ given.length ∧ given.length ≤ ov.args.length)) ∧
    (¬(ov.args.length - D ≤ given.length ∧ given.length ≤ ov.args.length) →
      args_fit_overload given ov = false) := by
  obtain ⟨ts, d⟩ := ov
  simp only at hdef hD ⊢
  subst hdef
  constructor
  · intro hpt
    constructor
    · intro hfit
      unfold args_fit_overload at hfit
      split at hfit
      · cases hfit
      · next hnc => simp only at hnc; omega
    · intro hR
      unfold args_fit_overload
      split
      · next hc => simp only at hc; omega
      · exact zip_all_of_pointwise ts given hpt
  · intro hR
    unfold args_fit_overload
    split
    · rfl
    · next hnc => simp only at hnc; omega

/-- C3 (witness): Scenario A — a 3-argument call with compatible tags
against a 5-parameter overload with 1 default is rejected (3 < 5 - 1). -/
theorem C3_witness :
    args_fit_overload ["ChAxis", "double", "double"]
      ⟨["ChAxis", "double", "double", "double", "ChContactMaterial"], (1 : Int)⟩ = false :=
  (C3_default_arity
    ⟨["ChAxis", "double", "double", "double", "ChContactMaterial"], (1 : Int)⟩
    1 ["ChAxis", "double", "double"] rfl (by decide)).2 (by decide)

/-! ### Unknown-strictness lemmas -/

theorem type_matches_unknown (t : String) : type_matches t "unknown" = false := by
  simp [type_matches]

theorem fit_all_unknown (given : List String) (ov : Overload)
    (h0 : given ≠ []) (hu : ∀ t ∈ given, t = "unknown") :
    args_fit_overload given ov = false := by
  obtain ⟨ts, d⟩ := ov
  unfold args_fit_overload
  split
  · rfl
  · next hnc =>
    cases given with
    | nil => exact absurd rfl h0
    | cons g gs =>
      cases ts with
      | nil =>
        exfalso
        simp only [List.length_cons, List.length_nil] at hnc
        omega
      | cons t tsr =>
        have hg : g = "unknown" := hu g (by simp)
        subst hg
        simp [type_matches_unknown]

/-- C4: `Unknown` never satisfies a declared parameter type; a call with
at least one argument whose inferred tags are all `"unknown"` fits no
overload with at least one declared parameter; and when such a call's
callee has catalogued overloads, an overload-mismatch finding is
emitted. -/
theorem C4_unknown_strict :
    (∀ t : String, type_matches t "unknown" = false) ∧
    (∀ (given : List String) (ov : Overload), given ≠ [] →
      (∀ t ∈ given, t = "unknown") → ov.args ≠ [] →
      args_fit_overload given ov = false) ∧
    (∀ (allow : Allowlist) (f : Expr) (args : List Expr)
        (kws : List (Option String × Expr)) (hd nm : String)
        (rest : List String) (fq : String) (ovs : List Overload),
      resolve_attr_chain f = hd :: nm :: rest → aliasToMod hd = some fq →
      ovLookup allow.overloads (fq ++ "." ++ nm) = some ovs →
      arg_types_pos_kw args kws ≠ [] →
      (∀ t ∈ arg_types_pos_kw args kws, t = "unknown") →
      callCheckNode allow (.call f args kws) ≠ []) := by
  refine ⟨type_matches_unknown,
    fun given ov h0 hu _ => fit_all_unknown given ov h0 hu, ?_⟩
  intro allow f args kws hd nm rest fq ovs hchain halias hov hne hu
  have hany : (ovs.any fun ov =>
      args_fit_overload (arg_types_pos_kw args kws) ov) = false := by
    cases hb : ovs.any fun ov => args_fit_overload (arg_types_pos_kw args kws) ov
    · rfl
    · obtain ⟨ov, _, hfit⟩ := List.any_eq_true.mp hb
      rw [fit_all_unknown _ ov hne hu] at hfit
      cases hfit
  simp [callCheckNode, hchain, halias, hov, hany]

/-- C4 (witness): `unknown` fails a `double` parameter; a 1-argument
all-unknown call fits no 1-parameter overload; and `chrono.Foo(x)` (with
`x` unanalyzable) draws a mismatch finding given `pychrono.Foo` is
catalogued. -/
theorem C4_witness :
    type_matches "double" "unknown" = false ∧
    args_fit_overload ["unknown"] ⟨["double"], 0⟩ = false ∧
    callCheckNode allowFoo callFooX ≠ [] :=
  ⟨C4_unknown_strict.1 "double",
   C4_unknown_strict.2.1 ["unknown"] ⟨["double"], 0⟩ (by decide) (by decide)
     (by decide),
   C4_unknown_strict.2.2 allowFoo (.attr (.name "chrono") "Foo") [.name "x"] []
     "chrono" "Foo" [] "pychrono" [⟨["double"], 0⟩] rfl rfl rfl (by decide)
     (by decide)⟩

/-! ### Enum-inference lemmas -/

theorem chainAux_getLast : ∀ (e : Expr) (acc : List String) (x : String),
    (chainAux e (acc ++ [x])).getLast? = some x
  | .name i, acc, x => by
    simp only [chainAux]
    rw [show i :: (acc ++ [x]) = (i :: acc) ++ [x] by simp]
    exact List.getLast?_concat _
  | .const c, acc, x => by
    simp only [chainAux]
    exact List.getLast?_concat _
  | .attr v a, acc, x => by
    simp only [chainAux]
    rw [show a :: (acc ++ [x]) = (a :: acc) ++ [x] by simp]
    exact chainAux_getLast v (a :: acc) x
  | .call f args kws, acc, x => by
    simp only [chainAux]
    exact List.getLast?_concat _

theorem chain_getLast (v : Expr) (s : String) :
    (resolve_attr_chain (.attr v s)).getLast? = some s := by
  simpa [resolve_attr_chain, chainAux] using chainAux_getLast v [] s

/-- C5 (counterexample): the specification's enum table holds `ChForce`
and the argument `chrono.ChForce_TYPE` has final segment matching the
`<FAMILY>_<UPPER>` convention for it, yet inference returns `"unknown"`,
not `"ChForce"` — the enum table is never consulted. -/
theorem C5_counterexample :
    allowChForce.enums = ["ChForce"] ∧
    resolve_attr_chain (.attr (.name "chrono") "ChForce_TYPE") =
      ["chrono", "ChForce_TYPE"] ∧
    infer_arg_type (.attr (.name "chrono") "ChForce_TYPE") = "unknown" ∧
    ("unknown" : String) ≠ "ChForce" :=
  ⟨rfl, rfl, rfl, by decide⟩

theorem name_or_attr_type_range (e : Expr) :
    name_or_attr_type e = some "ChAxis" ∨
    name_or_attr_type e = some "ChContactMaterial" ∨
    name_or_attr_type e = Option.none := by
  unfold name_or_attr_type
  cases (resolve_attr_chain e).getLast? with
  | none => right; right; rfl
  | some leaf =>
    cases h1 : isChAxisEnum leaf
    · cases h2 : containsMaterial leaf
      · right; right; simp [h1, h2]
      · right; left; simp [h1, h2]
    · left; simp [h1]

/-- C5 (amended): argument type inference never consults the
specification's enum-family table, and the only enum-family tag it can
produce is the hardcoded `ChAxis`: a name or attribute whose final chain
segment is exactly `ChAxis_` plus one uppercase ASCII letter infers
`ChAxis`, and every name or attribute argument infers one of `ChAxis`,
the opaque `ChContactMaterial` tag (material heuristic), or `unknown` —
never any other family's enum tag. -/
theorem C5_enum_inference (c : Char) (hc1 : 'A' ≤ c) (hc2 : c ≤ 'Z')
    (s : String) (hs : s.data = ['C', 'h', 'A', 'x', 'i', 's', '_', c]) :
    ((∀ v : Expr, infer_arg_type (.attr v s) = "ChAxis") ∧
      infer_arg_type (.name s) = "ChAxis") ∧
    (∀ (v : Expr) (a : String),
      infer_arg_type (.attr v a) = "ChAxis" ∨
      infer_arg_type (.attr v a) = "ChContactMaterial" ∨
      infer_arg_type (.attr v a) = "unknown") ∧
    (∀ i : String,
      infer_arg_type (.name i) = "ChAxis" ∨
      infer_arg_type (.name i) = "ChContactMaterial" ∨
      infer_arg_type (.name i) = "unknown") := by
  have haxis : isChAxisEnum s = true := by
    unfold isChAxisEnum
    rw [hs]
    simp [hc1, hc2]
  refine ⟨⟨?_, ?_⟩, ?_, ?_⟩
  · intro v
    simp [infer_arg_type, name_or_attr_type, chain_getLast v s, haxis]
  · simp [infer_arg_type, name_or_attr_type, resolve_attr_chain, chainAux, haxis]
  · intro v a
    rcases name_or_attr_type_range (.attr v a) with h | h | h <;>
      simp [infer_arg_type, h]
  · intro i
    rcases name_or_attr_type_range (.name i) with h | h | h <;>
      simp [infer_arg_type, h]

/-- C5 (witness): `chrono.ChAxis_Y` and bare `ChAxis_Y` infer `ChAxis`;
and `chrono.ChMaterial_X` — an enum-convention name caught by the
material heuristic — infers one of the three possible tags. -/
theorem C5_witness :
    (infer_arg_type (.attr (.name "chrono") "ChAxis_Y") = "ChAxis" ∧
      infer_arg_type (.name "ChAxis_Y") = "ChAxis") ∧
    (infer_arg_type (.attr (.name "chrono") "ChMaterial_X") = "ChAxis" ∨
      infer_arg_type (.attr (.name "chrono") "ChMaterial_X") = "ChContactMaterial" ∨
      infer_arg_type (.attr (.name "chrono") "ChMaterial_X") = "unknown") := by
  have h := C5_enum_inference 'Y' (by decide) (by decide) "ChAxis_Y" rfl
  exact ⟨⟨h.1.1 (.name "chrono"), h.1.2⟩, h.2.1 (.name "chrono") "ChMaterial_X"⟩

/-! ### Alias-resolution lemmas -/

theorem aliasToMod_none (hd : String) (hn : hd ∉ canonicalAliases) :
    aliasToMod hd = Option.none := by
  unfold aliasToMod
  cases hf : PYCHRONO_ROOTS.find? (fun p => p.2 == hd) with
  | none => rfl
  | some p =>
    exfalso
    apply hn
    simp only [canonicalAliases, List.mem_map]
    exact ⟨p, List.mem_of_find?_eq_some hf,
      by simpa using List.find?_some hf⟩

/-- C6: importing a recognized root under an alias other than its
canonical one emits the alias-mismatch finding; and the symbol and
overload checkers resolve chain heads only against the fixed canonical
alias strings, so a chain headed by an alias that is canonical for no
root produces no symbol, root-qualified legacy, or overload finding. -/
theorem C6_alias_discipline :
    (∀ (root want s : String), rootsLookup root = some want → s ≠ want →
      checkImportStmt (.imp [⟨root, some s⟩]) =
        ["Import must be exactly: \x27import " ++ root ++ " as " ++ want ++ "\x27"]) ∧
    (∀ (allow : Allowlist) (hd : String), hd ∉ canonicalAliases →
      (∀ (v : Expr) (a : String),
        (resolve_attr_chain (.attr v a)).head? = some hd →
        symbolCheckNode allow (.attr v a) = []) ∧
      (∀ (f : Expr) (args : List Expr) (kws : List (Option String × Expr)),
        (resolve_attr_chain f).head? = some hd →
        callCheckNode allow (.call f args kws) = [])) := by
  constructor
  · intro root want s hr hs
    simp [checkImportStmt, catMap, checkImportAlias, hr, hs]
  · intro allow hd hnc
    have hmod := aliasToMod_none hd hnc
    constructor
    · intro v a hhd
      cases hc : resolve_attr_chain (.attr v a) with
      | nil => simp [symbolCheckNode, hc]
      | cons x t =>
        rw [hc] at hhd
        simp only [List.head?, Option.some.injEq] at hhd
        subst hhd
        simp [symbolCheckNode, hc, hmod]
    · intro f args kws hhd
      cases hc : resolve_attr_chain f with
      | nil => simp [callCheckNode, hc]
      | cons x t =>
        rw [hc] at hhd
        simp only [List.head?, Option.some.injEq] at hhd
        subst hhd
        simp [callCheckNode, hc, hmod]

/-- C6 (witness): `import pychrono as ch` is flagged, and chains headed by
`ch` — even one reaching a legacy-blocked name — draw no symbol, legacy
(root-qualified) or overload findings. -/
theorem C6_witness :
    checkImportStmt (.imp [⟨"pychrono", some "ch"⟩]) =
      ["Import must be exactly: \x27import pychrono as chrono\x27"] ∧
    symbolCheckNode allowEmpty (.attr (.name "ch") "ChBodyAuxRef") = [] ∧
    callCheckNode allowEmpty (.call (.attr (.name "ch") "Foo") [] []) = [] := by
  have h2 := C6_alias_discipline.2 allowEmpty "ch" (by decide)
  exact ⟨C6_alias_discipline.1 "pychrono" "chrono" "ch" rfl (by decide),
    h2.1 (.name "ch") "ChBodyAuxRef" rfl,
    h2.2 (.attr (.name "ch") "Foo") [] [] rfl⟩

/-- C8: a call whose callee resolves to `root.symbol` with no catalogued
overloads draws no overload finding; if the symbol is also absent from the
module's symbol set and not legacy-blocked, the symbol checker emits the
MissingSymbol finding; and any node with a symbol-checker finding forces
`ok = false`. -/
theorem C8_matcher_skip :
    (∀ (allow : Allowlist) (f : Expr) (args : List Expr)
        (kws : List (Option String × Expr)) (hd nm : String)
        (rest : List String) (fq : String),
      resolve_attr_chain f = hd :: nm :: rest → aliasToMod hd = some fq →
      ovLookup allow.overloads (fq ++ "." ++ nm) = Option.none →
      callCheckNode allow (.call f args kws) = []) ∧
    (∀ (allow : Allowlist) (v : Expr) (a : String) (hd nm : String)
        (rest : List String) (fq : String),
      resolve_attr_chain (.attr v a) = hd :: nm :: rest →
      aliasToMod hd = some fq →
      LEGACY_BLOCKLIST.contains nm = false →
      is_allowed allow.modules fq nm = false →
      symbolCheckNode allow (.attr v a) =
        ["Missing in 9.0.1 allowlist: " ++ fq ++ "." ++ nm]) ∧
    (∀ (allow : Allowlist) (m : PySource) (e : Expr),
      e ∈ walkSource m → symbolCheckNode allow e ≠ [] →
      (validate (.ok m) allow).1 = false) := by
  refine ⟨?_, ?_, ?_⟩
  · intro allow f args kws hd nm rest fq hc ha ho
    simp [callCheckNode, hc, ha, ho]
  · intro allow v a hd nm rest fq hc ha hleg hallow
    have hleg' : nm ∉ LEGACY_BLOCKLIST := by simpa using hleg
    simp [symbolCheckNode, hc, ha, hleg', hallow]
  · intro allow m e he hne
    exact ok_false_of_errs (tree_ne_of_symbol he hne)

/-- C8 (witness): Scenario E — `chrono.SomeBrandNewMethod()` with the
symbol absent from both tables: no overload finding, a MissingSymbol
finding, and overall `ok = false`. -/
theorem C8_witness :
    callCheckNode allowScenE
      (.call (.attr (.name "chrono") "SomeBrandNewMethod") [] []) = [] ∧
    symbolCheckNode allowScenE (.attr (.name "chrono") "SomeBrandNewMethod") =
      ["Missing in 9.0.1 allowlist: pychrono.SomeBrandNewMethod"] ∧
    (validate (.ok srcScenE) allowScenE).1 = false := by
  refine ⟨C8_matcher_skip.1 allowScenE
      (.attr (.name "chrono") "SomeBrandNewMethod") [] []
      "chrono" "SomeBrandNewMethod" [] "pychrono" rfl rfl rfl,
    C8_matcher_skip.2.1 allowScenE (.name "chrono") "SomeBrandNewMethod"
      "chrono" "SomeBrandNewMethod" [] "pychrono" rfl rfl (by decide) (by decide),
    ?_⟩
  have hmem : (.attr (.name "chrono") "SomeBrandNewMethod" : Expr) ∈
      walkSource srcScenE := List.Mem.tail _ (List.Mem.head _)
  exact C8_matcher_skip.2.2 allowScenE srcScenE
    (.attr (.name "chrono") "SomeBrandNewMethod") hmem (by decide)

end ChronoGate
